import Mathlib

/-!
# Verification of the QuizMate quiz session engine

Shallow embedding of the quiz engine of the QuizMate repository:

* `src/src/pages/Quiz.tsx` — the quiz component (question merging, answer
  evaluation, streak tracking, session completion and score recording);
* the Results page (`Results.tsx`) — statistics aggregation (accuracy,
  total time, topic performance, weak topics) and the recommendation
  gateway call (`submitQuizResults`, with `submitQuiz` from
  `frontend/src/services/api.ts`);
* the shared types (`types/index.ts`).

Modelling conventions:

* JavaScript numbers are modelled exactly: integers as `Int`/`Nat`,
  fractional arithmetic as `ℚ`.  Where a double-precision rounding error
  can reach an observable result — the accuracy pipeline
  `(correctAnswers / totalQuestions) * 100` of the statistics memo — each
  arithmetic step is rounded to the nearest binary64 (`roundToDouble`).
  `Math.round` is `round : ℚ → ℤ` applied to the double's exact value, as
  ECMAScript defines it (both are `⌊x + 1/2⌋`, halves toward `+∞`).  The
  remaining fractional arithmetic is kept as exact rationals: the
  `timeTaken` rounding and `handleNext`'s score are evaluated in this
  development only at points where the double computation is exact, and
  the weak-topic comparison against the literal `0.6` cannot land on the
  other side of the boundary for any feasible array length (the exact
  ratio of two counts below the 2³² array cap is never within the
  sub-`2⁻⁵⁰` window around `0.6` where the double comparison differs,
  except at `3/5` itself, where both comparisons answer "not below").
* `Array.prototype.sort()` with the default comparator sorts by the decimal
  string representation of the numbers, compared UTF-16 code unit by code
  unit; it is modelled as an insertion sort under `jsLe`, the lexicographic
  comparison of the `Nat.toDigits 10` character lists by code point
  (`Nat.repr n = (Nat.toDigits 10 n).asString`, and on ASCII digit strings
  code points and UTF-16 code units agree; any sorting algorithm yields the
  same result for a total antisymmetric order).  `JSON.stringify l₁ ===
  JSON.stringify l₂` on number arrays is equality of the (sorted) lists.
* JavaScript objects used as string-keyed maps (`topicPerformance`) are
  modelled as insertion-ordered association lists, matching the
  insertion-order iteration of `Object.entries`.
* The `x || d` idiom is modelled by its exact falsiness semantics on each
  type (`0`, `""`, `null`/`undefined` fall back to `d`; everything else,
  including negative numbers, is kept).
* String fields that only feed rendering (question text, explanation,
  difficulty, page references) are omitted from the records; no embedded
  operation reads them.
-/

/-! ## Data model (from `types/index.ts`) -/

/-- `MultipleChoiceQuestion` from `types/index.ts` (logic-relevant fields). -/
structure MultipleChoiceQuestion where
  options : List String
  correct_answer : Nat
  topic : Option String
deriving DecidableEq

/-- `MultiSelectQuestion` from `types/index.ts` (logic-relevant fields). -/
structure MultiSelectQuestion where
  options : List String
  correct_answers : List Nat
  topic : Option String
deriving DecidableEq

/-- `TrueFalseQuestion` from `types/index.ts` (logic-relevant fields). -/
structure TrueFalseQuestion where
  correct_answer : Bool
  topic : Option String
deriving DecidableEq

/-- The tag strings `'multiple_choice' | 'multi_select' | 'true_false'`
used in `Quiz.tsx` for merged questions and for `QuizAnswer.questionType`. -/
inductive QuestionType where
  | multiple_choice
  | multi_select
  | true_false
deriving DecidableEq

/-- One entry of the merged `allQuestions` array of `Quiz.tsx`
(`{type, data, index}`; the per-type `index` is recoverable from the
position and is not carried separately). -/
inductive QuestionData where
  | multiple_choice : MultipleChoiceQuestion → QuestionData
  | multi_select : MultiSelectQuestion → QuestionData
  | true_false : TrueFalseQuestion → QuestionData
deriving DecidableEq

/-- The `type` tag of a merged question. -/
def QuestionData.tag : QuestionData → QuestionType
  | .multiple_choice _ => .multiple_choice
  | .multi_select _ => .multi_select
  | .true_false _ => .true_false

/-- The optional `topic` field of a merged question. -/
def QuestionData.topic : QuestionData → Option String
  | .multiple_choice q => q.topic
  | .multi_select q => q.topic
  | .true_false q => q.topic

/-- The question arrays of `ProcessedContent` consumed by the quiz. -/
structure ProcessedContent where
  multiple_choice_questions : List MultipleChoiceQuestion
  multi_select_questions : List MultiSelectQuestion
  true_false_questions : List TrueFalseQuestion
deriving DecidableEq

/-- The merged `allQuestions` sequence of `Quiz.tsx` (lines 35-51):
multiple choice, then multi select, then true/false. -/
def allQuestions (pc : ProcessedContent) : List QuestionData :=
  pc.multiple_choice_questions.map QuestionData.multiple_choice ++
    pc.multi_select_questions.map QuestionData.multi_select ++
    pc.true_false_questions.map QuestionData.true_false

/-- The value held by the `selectedAnswer` React state when non-null:
an option index for multiple choice, a boolean for true/false. -/
inductive SingleAnswer where
  | idx : Nat → SingleAnswer
  | bool : Bool → SingleAnswer
deriving DecidableEq

/-- The `userAnswer : any` field of `QuizAnswer`. -/
inductive UserAnswer where
  | single : SingleAnswer → UserAnswer
  | multi : List Nat → UserAnswer
deriving DecidableEq

/-- `QuizAnswer` from `types/index.ts`, as committed by `handleAnswer`. -/
structure QuizAnswer where
  questionIndex : Nat
  questionType : QuestionType
  userAnswer : UserAnswer
  isCorrect : Bool
  timeTaken : Int
deriving DecidableEq

/-! ## JavaScript semantics helpers -/

/-- JavaScript `Math.round` on an exact rational: `⌊x + 1/2⌋`
(halves round toward positive infinity, as `Math.round` does). -/
def jsMathRound (x : ℚ) : Int := round x

/-- Round a rational to an integer, ties to the even integer: the IEEE 754
rounding of a scaled significand. -/
def roundHalfEven (q : ℚ) : ℤ :=
  if q - ⌊q⌋ < 1 / 2 then ⌊q⌋
  else if 1 / 2 < q - ⌊q⌋ then ⌊q⌋ + 1
  else if ⌊q⌋ % 2 = 0 then ⌊q⌋ else ⌊q⌋ + 1

/-- The IEEE 754 binary64 value nearest to `x` (round to nearest, ties to
even): the significand, scaled into 53 bits at the binade of `x`, is
rounded to an integer and scaled back.  Overflow and the subnormal range
are not modelled; every value this development applies it to lies well
inside the normal range. -/
def roundToDouble (x : ℚ) : ℚ :=
  if x = 0 then 0
  else
    (roundHalfEven (x / 2 ^ (Int.log 2 |x| - 52)) : ℚ)
      * 2 ^ (Int.log 2 |x| - 52)

/-- Strict equality `v === n` between a `selectedAnswer` value and a
numeric `correct_answer` (different runtime types are never equal). -/
def jsStrictEqNat : SingleAnswer → Nat → Bool
  | .idx i, n => i == n
  | .bool _, _ => false

/-- Strict equality `v === b` between a `selectedAnswer` value and a
boolean `correct_answer`. -/
def jsStrictEqBool : SingleAnswer → Bool → Bool
  | .bool b, c => b == c
  | .idx _, _ => false

/-- `t || 0` on a number: `0` (and only `0`, among integers) is falsy. -/
def jsOrZeroInt (t : Int) : Int := if t = 0 then 0 else t

/-- `s || d` where `s` is an optional string: `undefined` and the empty
string are falsy. -/
def jsStringOr (s : Option String) (d : String) : String :=
  match s with
  | none => d
  | some t => if t = "" then d else t

/-! ### The default array sort

`selectedAnswers.sort()` and `correct_answers.sort()` use the default
comparator, which compares the decimal string representations of the
numbers.  `jsLe` is that comparison; the sort itself is modelled as
`List.insertionSort jsLe` (any sorting algorithm yields the same result
for a total antisymmetric order).  Antisymmetry of `jsLe` needs the
injectivity of the decimal representation `Nat.toDigits 10`
(`Nat.repr n = (Nat.toDigits 10 n).asString`), proved below via
`reprDigits`. -/

/-- Decimal digits of `n`, most significant first (each `< 10`). -/
def reprDigits (n : Nat) : List Nat :=
  if n < 10 then [n] else reprDigits (n / 10) ++ [n % 10]
termination_by n
decreasing_by exact Nat.div_lt_self (by omega) (by omega)

/-- Recombine a digit list (inverse of `reprDigits`). -/
def unDigits (l : List Nat) : Nat := l.foldl (fun a d => 10 * a + d) 0

/-- Lexicographic `≤` on character lists, comparing code points. -/
def charListLe : List Char → List Char → Bool
  | [], _ => true
  | _ :: _, [] => false
  | c :: cs, d :: ds =>
    if c.toNat = d.toNat then charListLe cs ds else Nat.blt c.toNat d.toNat

/-- The default comparator of `Array.prototype.sort()` on numbers: compare
the decimal string representations code unit by code unit. -/
def jsLe (a b : Nat) : Prop :=
  charListLe (Nat.toDigits 10 a) (Nat.toDigits 10 b) = true

instance : DecidableRel jsLe := fun _ _ =>
  inferInstanceAs (Decidable (_ = true))

/-- `arr.sort()` with the default (string) comparator. -/
def jsSortNat (l : List Nat) : List Nat := l.insertionSort jsLe

/-- The multi-select correctness check of `handleAnswer` (Quiz.tsx lines
88-91): sort both arrays with the default comparator and compare
`JSON.stringify` outputs, i.e. compare the sorted lists. -/
def evalMultiSelect (correct_answers selectedAnswers : List Nat) : Bool :=
  jsSortNat correct_answers == jsSortNat selectedAnswers

/-! ## The quiz session state machine (`Quiz.tsx`)

The React state of the `Quiz` component.  Timestamps are milliseconds
(`Date.getTime()`), carried as `Int`.  `elapsedTime` (a display-only
timer) is omitted; no committed data reads it. -/

structure QuizComponentState where
  currentIndex : Nat
  selectedAnswer : Option SingleAnswer
  selectedAnswers : List Nat
  showFeedback : Bool
  answers : List QuizAnswer
  questionStartTime : Int
  correctStreak : Nat
deriving DecidableEq

/-- The initial component state at mount time (`useState` initialisers). -/
def initQuizState (startTime : Int) : QuizComponentState :=
  { currentIndex := 0
    selectedAnswer := none
    selectedAnswers := []
    showFeedback := false
    answers := []
    questionStartTime := startTime
    correctStreak := 0 }

/-- An option/boolean click for single-answer questions:
`onClick={() => !showFeedback && setSelectedAnswer(v)}`. -/
def selectAnswer (st : QuizComponentState) (v : SingleAnswer) : QuizComponentState :=
  if st.showFeedback then st else { st with selectedAnswer := some v }

/-- `handleMultiSelectToggle` (Quiz.tsx lines 69-76): toggle an index in
the tentative multi-select set. -/
def handleMultiSelectToggle (st : QuizComponentState) (index : Nat) : QuizComponentState :=
  if st.showFeedback then st
  else
    { st with
      selectedAnswers :=
        if index ∈ st.selectedAnswers then st.selectedAnswers.filter (fun i => i ≠ index)
        else st.selectedAnswers ++ [index] }

/-- The type-dispatched correctness evaluation of `handleAnswer`
(Quiz.tsx lines 85-94). -/
def evalIsCorrect (q : QuestionData) (selectedAnswer : Option SingleAnswer)
    (selectedAnswers : List Nat) : Bool :=
  match q with
  | .multiple_choice mc =>
    match selectedAnswer with
    | some sa => jsStrictEqNat sa mc.correct_answer
    | none => false
  | .multi_select ms => evalMultiSelect ms.correct_answers selectedAnswers
  | .true_false tf =>
    match selectedAnswer with
    | some sa => jsStrictEqBool sa tf.correct_answer
    | none => false

/-- The streak update of `handleAnswer` (Quiz.tsx lines 96-101):
`+1` on a correct answer, reset to `0` on an incorrect one. -/
def nextStreak (correctStreak : Nat) (isCorrect : Bool) : Nat :=
  if isCorrect then correctStreak + 1 else 0

/-- The committing tail of `handleAnswer` (Quiz.tsx lines 83-112):
compute `timeTaken`, evaluate, update the streak, append the new
`QuizAnswer` and show feedback. -/
def commitAnswer (st : QuizComponentState) (q : QuestionData)
    (userAnswer : UserAnswer) (now : Int) : QuizComponentState :=
  let timeTaken : Int := jsMathRound (((now - st.questionStartTime : Int) : ℚ) / 1000)
  let isCorrect : Bool := evalIsCorrect q st.selectedAnswer st.selectedAnswers
  let newAnswer : QuizAnswer :=
    { questionIndex := st.currentIndex
      questionType := q.tag
      userAnswer := userAnswer
      isCorrect := isCorrect
      timeTaken := timeTaken }
  { st with
    correctStreak := nextStreak st.correctStreak isCorrect
    answers := st.answers ++ [newAnswer]
    showFeedback := true }

/-- `handleAnswer` (Quiz.tsx lines 78-113).  The early returns for an
empty/null selection leave the state unchanged.  `now` is the clock
reading (`new Date().getTime()`). -/
def handleAnswer (qs : List QuestionData) (st : QuizComponentState) (now : Int) :
    QuizComponentState :=
  match qs.get? st.currentIndex with
  | none => st
  | some q =>
    match q with
    | .multi_select _ =>
      if st.selectedAnswers.length = 0 then st
      else commitAnswer st q (.multi st.selectedAnswers) now
    | _ =>
      match st.selectedAnswer with
      | none => st
      | some sa => commitAnswer st q (.single sa) now

/-- The `QuizState` record written to the store at completion
(`setQuizState` in `handleNext`, Quiz.tsx lines 128-135). -/
structure QuizState where
  currentQuestion : Nat
  answers : List QuizAnswer
  startTime : Int
  endTime : Int
  score : Int
  showFeedback : Bool
deriving DecidableEq

/-- Outcome of `handleNext`: either the component state for the next
question, or navigation to the results page with the recorded `QuizState`. -/
inductive NextResult where
  | next : QuizComponentState → NextResult
  | complete : QuizState → NextResult
deriving DecidableEq

/-- The completion-time correct count of `handleNext` (Quiz.tsx line 124):
`answers.filter((a) => a.isCorrect).length +
 (answers[answers.length - 1]?.isCorrect ? 1 : 0)`. -/
def handleNextCorrectCount (answers : List QuizAnswer) : Nat :=
  (answers.filter (fun a => a.isCorrect)).length +
    (match answers.getLast? with
     | some a => if a.isCorrect then 1 else 0
     | none => 0)

/-- `handleNext` (Quiz.tsx lines 115-138).  On the last question it
records the score `Math.round((correctCount / allQuestions.length) * 100)`
and the end time.  (`currentIndex < allQuestions.length - 1` is a
comparison of non-negative values; `Nat` subtraction agrees with the
JavaScript comparison for the non-empty banks the component renders.) -/
def handleNext (qs : List QuestionData) (st : QuizComponentState)
    (startTime now : Int) : NextResult :=
  if st.currentIndex < qs.length - 1 then
    .next
      { st with
        currentIndex := st.currentIndex + 1
        selectedAnswer := none
        selectedAnswers := []
        showFeedback := false
        questionStartTime := now }
  else
    let correctCount : Nat := handleNextCorrectCount st.answers
    let score : Int := jsMathRound (((correctCount : ℚ) / (qs.length : ℚ)) * 100)
    .complete
      { currentQuestion := st.currentIndex
        answers := st.answers
        startTime := startTime
        endTime := now
        score := score
        showFeedback := true }

/-- `getStreakMessage` (Quiz.tsx lines 140-144) projects the current
streak onto a banner tier; `none` models the `return null` branch. -/
inductive StreakTier where
  | high
  | medium
deriving DecidableEq

/-- Tier projection of the streak counter: `≥ 5` high, `≥ 3` medium,
otherwise no banner. -/
def getStreakMessage (correctStreak : Nat) : Option StreakTier :=
  if 5 ≤ correctStreak then some .high
  else if 3 ≤ correctStreak then some .medium
  else none

/-! ### The navigation guard (Quiz.tsx lines 491-509)

Exactly one of the two buttons is rendered: `Submit Answer` when
`showFeedback` is false, `Next Question`/`View Results` when it is true.
A `submit` while feedback is showing, or an `advance` before a submit,
has no rendered control; the spec's session-controller view calls such a
rejected transition `StateError`.  `clickSubmit`/`clickNext` model one
user-level operation each: the rejected case returns the state unchanged
together with the error. -/

inductive QuizUiError where
  | StateError
deriving DecidableEq

/-- A `submit()` attempt: rejected (state unchanged) while feedback for
the current question is already showing. -/
def clickSubmit (qs : List QuestionData) (st : QuizComponentState) (now : Int) :
    QuizComponentState × Option QuizUiError :=
  if st.showFeedback then (st, some .StateError)
  else (handleAnswer qs st now, none)

/-- An `advance()` attempt: rejected (state unchanged) when no submit has
committed an answer for the current question. -/
def clickNext (qs : List QuestionData) (st : QuizComponentState)
    (startTime now : Int) : NextResult × Option QuizUiError :=
  if st.showFeedback then (handleNext qs st startTime now, none)
  else (.next st, some .StateError)

/-! ## Statistics aggregation (the Results page `statistics` memo) -/

/-- The `{correct, total}` accumulator of `topicPerformance`. -/
structure TopicStat where
  correct : Nat
  total : Nat
deriving DecidableEq

/-- `accuracy` (Results, statistics memo):
`totalQuestions > 0 ? (correctAnswers / totalQuestions) * 100 : 0`,
with the double-precision arithmetic modelled exactly: the two counts are
exactly representable, and both the quotient and the product with 100 are
rounded to the nearest binary64.  (`Math.round` is applied only later, at
`score`.) -/
def statisticsAccuracy (answers : List QuizAnswer) : ℚ :=
  if 0 < answers.length then
    roundToDouble
      (roundToDouble
        (((answers.filter (fun a => a.isCorrect)).length : ℚ)
          / (answers.length : ℚ)) * 100)
  else 0

/-- `score` (Results, line `const score = Math.round(statistics.accuracy)`). -/
def resultsScore (answers : List QuizAnswer) : Int :=
  jsMathRound (statisticsAccuracy answers)

/-- `totalTimeTaken` (Results):
`answers.reduce((sum, answer) => sum + (answer.timeTaken || 0), 0)`. -/
def totalTimeTaken (answers : List QuizAnswer) : Int :=
  answers.foldl (fun sum answer => sum + jsOrZeroInt answer.timeTaken) 0

/-- The topic attributed to the answer at position `idx`:
`allQuestions[idx]?.topic || 'General'` (a missing question or a
missing/empty topic falls back to `"General"`). -/
def topicOf (qs : List QuestionData) (idx : Nat) : String :=
  jsStringOr ((qs.get? idx).bind QuestionData.topic) "General"

/-- One step of the `topicPerformance` accumulation (the body of the
`forEach`): create the `{correct: 0, total: 0}` entry on first sight of
the topic — appended at the end, as a new key of a JavaScript object —
then increment `total` and, when correct, `correct`. -/
def incrTopic : List (String × TopicStat) → String → Bool → List (String × TopicStat)
  | [], t, isCorrect => [(t, ⟨if isCorrect then 1 else 0, 1⟩)]
  | e :: rest, t, isCorrect =>
    if e.1 = t then
      (e.1, ⟨e.2.correct + (if isCorrect then 1 else 0), e.2.total + 1⟩) :: rest
    else e :: incrTopic rest t isCorrect

/-- `topicPerformance` (Results): fold the `forEach` over the answers
with their positions (`(answer, idx)`), grouping into the
insertion-ordered map. -/
def topicPerformance (qs : List QuestionData) (answers : List QuizAnswer) :
    List (String × TopicStat) :=
  answers.enum.foldl (fun perf ia => incrTopic perf (topicOf qs ia.1) ia.2.isCorrect) []

/-- The weak-topic test `(perf.correct / perf.total) < 0.6`, with the
literal `0.6` as the exact rational `3/5`. -/
def isWeakStat (s : TopicStat) : Bool :=
  decide (((s.correct : ℚ) / (s.total : ℚ)) < 3 / 5)

/-- `weakTopics` (Results): filter the entries of `topicPerformance`
below 60% and keep their topic names, in iteration (insertion) order. -/
def weakTopics (perf : List (String × TopicStat)) : List String :=
  (perf.filter (fun e => isWeakStat e.2)).map (fun e => e.1)

/-- The `QuizStatistics` record returned by the statistics memo. -/
structure QuizStatistics where
  accuracy : ℚ
  totalTimeTaken : Int
  topicPerformance : List (String × TopicStat)
  weakTopics : List String
deriving DecidableEq

/-- The statistics memo of the Results page (over the committed answers
and the merged question list used for topic lookup). -/
def statistics (qs : List QuestionData) (answers : List QuizAnswer) : QuizStatistics :=
  { accuracy := statisticsAccuracy answers
    totalTimeTaken := totalTimeTaken answers
    topicPerformance := topicPerformance qs answers
    weakTopics := weakTopics (topicPerformance qs answers) }

/-! ## The recommendation gateway call (`submitQuizResults` in Results) -/

/-- `PerformanceAnalysis` from `frontend/src/types/index.ts`. -/
structure PerformanceAnalysis where
  overall_score : ℚ
  accuracy_by_topic : List (String × ℚ)
  difficulty_progression : String
  strengths : List String
  areas_for_improvement : List String
  recommended_actions : List String
  next_difficulty : String
  encouragement_message : String
deriving DecidableEq

/-- A failure of the `submitQuiz` HTTP call (service unreachable,
timeout, non-2xx response); the carried message is opaque. -/
structure GatewayError where
  message : String
deriving DecidableEq

/-- The Results-page React state that the gateway call can touch, plus
the console log (which is not rendered anywhere on the page). -/
structure ResultsPageState where
  performanceAnalysis : Option PerformanceAnalysis
  isSubmitting : Bool
  consoleErrors : List String
deriving DecidableEq

/-- The Results-page state at mount time. -/
def initResultsPageState : ResultsPageState :=
  { performanceAnalysis := none, isSubmitting := false, consoleErrors := [] }

/-- `submitQuizResults` (Results): the effect of one run of the
submission effect, given the outcome of the awaited `submitQuiz` call.
The early `return` fires when an analysis is already present; a success
stores the analysis; a failure is caught and logged
(`console.error('Failed to submit quiz for analysis:', error)`);
`finally` clears `isSubmitting`. -/
def submitQuizResults (st : ResultsPageState)
    (outcome : Except GatewayError PerformanceAnalysis) : ResultsPageState :=
  if st.performanceAnalysis.isSome then st
  else
    match outcome with
    | .ok analysis =>
      { st with performanceAnalysis := some analysis, isSubmitting := false }
    | .error _ =>
      { st with
        consoleErrors := st.consoleErrors ++ ["Failed to submit quiz for analysis:"]
        isSubmitting := false }

/-- Everything the Results page renders as the completion summary:
the score, the statistics, and (when present) the analysis section.
The console log is not part of it. -/
structure CompletionSummary where
  score : Int
  statistics : QuizStatistics
  performanceAnalysis : Option PerformanceAnalysis
deriving DecidableEq

/-- The completion summary rendered from the committed answers, the
question list and the page state. -/
def renderSummary (qs : List QuestionData) (answers : List QuizAnswer)
    (page : ResultsPageState) : CompletionSummary :=
  { score := resultsScore answers
    statistics := statistics qs answers
    performanceAnalysis := page.performanceAnalysis }

/-! ## The spec's wording, for comparison

Two definitions that follow the specification's words rather than the
source, stated so the source's behaviour can be compared against them. -/

/-- The spec's wording of `computeTotalTime()`: "sum of `timeTakenSeconds`
across answers, each clamped to `≥ 0`".  Compare `totalTimeTaken`. -/
def specClampedTotalTime (answers : List QuizAnswer) : Int :=
  answers.foldl (fun sum a => sum + max a.timeTaken 0) 0

/-- The spec's wording of the topic iteration order: "first-seen topic
order".  Compare the key order of `topicPerformance`. -/
def specFirstSeen (topics : List String) : List String :=
  topics.foldl (fun acc t => if t ∈ acc then acc else acc ++ [t]) []

/-! ## Concrete sessions used by the closed theorems -/

/-- A one-question bank: a single multiple-choice question whose correct
option is index 1. -/
def oneQuestionBank : List QuestionData :=
  [.multiple_choice { options := ["a", "b"], correct_answer := 1, topic := none }]

/-- A visibly invalid `QuizState` (used only as the unreachable fallback
when a completed run is projected out of `NextResult`). -/
def invalidQuizState : QuizState :=
  { currentQuestion := 0, answers := [], startTime := 0, endTime := 0
    score := -1, showFeedback := false }

/-- The `QuizState` recorded for a session over `oneQuestionBank` whose
single question is answered correctly: select option 1, submit, advance. -/
def oneQuestionRun : QuizState :=
  match (clickNext oneQuestionBank
      ((clickSubmit oneQuestionBank
        (selectAnswer (initQuizState 0) (.idx 1)) 5000).1) 0 9000).1 with
  | .complete q => q
  | .next _ => invalidQuizState

/-- A four-question true/false bank (every correct answer is `true`). -/
def tfBank : List QuestionData :=
  [.true_false { correct_answer := true, topic := none },
   .true_false { correct_answer := true, topic := none },
   .true_false { correct_answer := true, topic := none },
   .true_false { correct_answer := true, topic := none }]

/-- Drive a session through the given true/false selections (select,
submit, advance for each), recording the streak counter right after each
submission. -/
def runStreaks (qs : List QuestionData) (st : QuizComponentState) :
    List Bool → List Nat
  | [] => []
  | b :: bs =>
    let submitted := (clickSubmit qs (selectAnswer st (.bool b)) 0).1
    submitted.correctStreak ::
      (match (clickNext qs submitted 0 0).1 with
       | .next st' => runStreaks qs st' bs
       | .complete _ => runStreaks qs submitted bs)

/-- The committed answers of a session whose clock jumped backward five
seconds between question presentation and submission (Quiz.tsx line 83
records the elapsed time without clamping). -/
def backwardClockAnswers : List QuizAnswer :=
  (handleAnswer [.true_false { correct_answer := true, topic := none }]
    { initQuizState 10000 with selectedAnswer := some (.bool true) } 5000).answers

/-- A correct true/false answer taking three seconds. -/
def sampleCorrectAnswer : QuizAnswer :=
  { questionIndex := 0, questionType := .true_false
    userAnswer := .single (.bool true), isCorrect := true, timeTaken := 3 }

/-- An incorrect true/false answer taking four seconds. -/
def sampleIncorrectAnswer : QuizAnswer :=
  { questionIndex := 1, questionType := .true_false
    userAnswer := .single (.bool false), isCorrect := false, timeTaken := 4 }

/-- Forty committed answers, 23 of them correct. -/
def fortyAnswers : List QuizAnswer :=
  List.replicate 23 sampleCorrectAnswer ++ List.replicate 17 sampleIncorrectAnswer

/-! ## Properties of the embedding -/

theorem unDigits_append_singleton (l : List Nat) (d : Nat) :
    unDigits (l ++ [d]) = 10 * unDigits l + d := by
  simp [unDigits]

theorem unDigits_reprDigits (n : Nat) : unDigits (reprDigits n) = n := by
  induction n using Nat.strong_induction_on with
  | _ n ih =>
    rw [reprDigits]
    by_cases h : n < 10
    · simp [h, unDigits]
    · rw [if_neg h, unDigits_append_singleton,
        ih (n / 10) (Nat.div_lt_self (by omega) (by omega))]
      omega

theorem reprDigits_injective : Function.Injective reprDigits := by
  intro m n h
  have := unDigits_reprDigits m
  rw [h, unDigits_reprDigits] at this
  omega

theorem reprDigits_lt_ten (n : Nat) : ∀ d ∈ reprDigits n, d < 10 := by
  induction n using Nat.strong_induction_on with
  | _ n ih =>
    rw [reprDigits]
    by_cases h : n < 10
    · simp [h]
    · rw [if_neg h]
      intro d hd
      rcases List.mem_append.mp hd with hd | hd
      · exact ih (n / 10) (Nat.div_lt_self (by omega) (by omega)) d hd
      · simp at hd
        omega

theorem digitChar_inj_of_lt_ten :
    ∀ a b : Fin 10, Nat.digitChar a.val = Nat.digitChar b.val → a = b := by
  decide

theorem toDigitsCore_eq_reprDigits (fuel n : Nat) (acc : List Char)
    (h : n < fuel) :
    Nat.toDigitsCore 10 fuel n acc = (reprDigits n).map Nat.digitChar ++ acc := by
  induction fuel generalizing n acc with
  | zero => omega
  | succ fuel ih =>
    rw [Nat.toDigitsCore]
    by_cases h10 : n / 10 = 0
    · have hn : n < 10 := by omega
      rw [if_pos h10, reprDigits, if_pos hn, Nat.mod_eq_of_lt hn]
      simp
    · have hn : ¬ n < 10 := by omega
      conv_rhs => rw [reprDigits]
      rw [if_neg h10, if_neg hn, ih (n / 10) _ (by omega)]
      simp

theorem toDigits_eq_reprDigits (n : Nat) :
    Nat.toDigits 10 n = (reprDigits n).map Nat.digitChar := by
  rw [Nat.toDigits, toDigitsCore_eq_reprDigits (n + 1) n [] (by omega)]
  simp

theorem map_digitChar_inj {l₁ l₂ : List Nat}
    (h₁ : ∀ d ∈ l₁, d < 10) (h₂ : ∀ d ∈ l₂, d < 10)
    (h : l₁.map Nat.digitChar = l₂.map Nat.digitChar) : l₁ = l₂ := by
  induction l₁ generalizing l₂ with
  | nil => cases l₂ <;> simp_all
  | cons a l ih =>
    cases l₂ with
    | nil => simp_all
    | cons b l' =>
      simp only [List.map_cons, List.cons.injEq] at h
      have ha : a < 10 := h₁ a (by simp)
      have hb : b < 10 := h₂ b (by simp)
      have := digitChar_inj_of_lt_ten ⟨a, ha⟩ ⟨b, hb⟩ h.1
      simp only [Fin.mk.injEq] at this
      exact List.cons_eq_cons.mpr ⟨this,
        ih (fun d hd => h₁ d (by simp [hd])) (fun d hd => h₂ d (by simp [hd])) h.2⟩

theorem toDigits_injective {m n : Nat}
    (h : Nat.toDigits 10 m = Nat.toDigits 10 n) : m = n := by
  rw [toDigits_eq_reprDigits, toDigits_eq_reprDigits] at h
  exact reprDigits_injective
    (map_digitChar_inj (reprDigits_lt_ten m) (reprDigits_lt_ten n) h)

theorem charToNat_injective {c d : Char} (h : c.toNat = d.toNat) : c = d := by
  have h' := congrArg Char.ofNat h
  rwa [Char.ofNat_toNat, Char.ofNat_toNat] at h'

theorem charListLe_total : ∀ x y : List Char,
    charListLe x y = true ∨ charListLe y x = true
  | [], _ => Or.inl rfl
  | _ :: _, [] => Or.inr rfl
  | c :: cs, d :: ds => by
    by_cases h : c.toNat = d.toNat
    · rcases charListLe_total cs ds with h' | h'
      · exact Or.inl (by simp [charListLe, h, h'])
      · exact Or.inr (by simp [charListLe, h.symm, h'])
    · rcases Nat.lt_or_ge c.toNat d.toNat with h' | h'
      · exact Or.inl (by simp [charListLe, h, Nat.blt_eq, h'])
      · refine Or.inr (by simp [charListLe, Ne.symm h, Nat.blt_eq]; omega)

theorem charListLe_trans : ∀ {x y z : List Char},
    charListLe x y = true → charListLe y z = true → charListLe x z = true
  | [], _, _, _, _ => rfl
  | _ :: _, [], _, hxy, _ => by simp [charListLe] at hxy
  | _ :: _, _ :: _, [], _, hyz => by simp [charListLe] at hyz
  | c :: cs, d :: ds, e :: es, hxy, hyz => by
    simp only [charListLe] at hxy hyz ⊢
    by_cases hcd : c.toNat = d.toNat <;> by_cases hde : d.toNat = e.toNat
    · rw [if_pos hcd] at hxy
      rw [if_pos hde] at hyz
      rw [if_pos (hcd.trans hde)]
      exact charListLe_trans hxy hyz
    · rw [if_neg hde, Nat.blt_eq] at hyz
      rw [if_neg (show ¬ c.toNat = e.toNat by omega), Nat.blt_eq]
      omega
    · rw [if_neg hcd, Nat.blt_eq] at hxy
      rw [if_neg (show ¬ c.toNat = e.toNat by omega), Nat.blt_eq]
      omega
    · rw [if_neg hcd, Nat.blt_eq] at hxy
      rw [if_neg hde, Nat.blt_eq] at hyz
      rw [if_neg (show ¬ c.toNat = e.toNat by omega), Nat.blt_eq]
      omega

theorem charListLe_antisymm : ∀ {x y : List Char},
    charListLe x y = true → charListLe y x = true → x = y
  | [], [], _, _ => rfl
  | [], _ :: _, _, hyx => by simp [charListLe] at hyx
  | _ :: _, [], hxy, _ => by simp [charListLe] at hxy
  | c :: cs, d :: ds, hxy, hyx => by
    simp only [charListLe] at hxy hyx
    by_cases hcd : c.toNat = d.toNat
    · rw [if_pos hcd] at hxy
      rw [if_pos hcd.symm] at hyx
      rw [charToNat_injective hcd, charListLe_antisymm hxy hyx]
    · rw [if_neg hcd, Nat.blt_eq] at hxy
      rw [if_neg (Ne.symm hcd), Nat.blt_eq] at hyx
      omega

instance : IsTotal Nat jsLe :=
  ⟨fun a b => charListLe_total (Nat.toDigits 10 a) (Nat.toDigits 10 b)⟩

instance : IsTrans Nat jsLe := ⟨fun _ _ _ h₁ h₂ => charListLe_trans h₁ h₂⟩

instance : IsAntisymm Nat jsLe :=
  ⟨fun _ _ h₁ h₂ => toDigits_injective (charListLe_antisymm h₁ h₂)⟩

theorem jsSortNat_perm (l : List Nat) : List.Perm (jsSortNat l) l :=
  List.perm_insertionSort jsLe l

theorem jsSortNat_eq_of_perm {l₁ l₂ : List Nat} (h : List.Perm l₁ l₂) :
    jsSortNat l₁ = jsSortNat l₂ :=
  List.eq_of_perm_of_sorted ((jsSortNat_perm l₁).trans (h.trans (jsSortNat_perm l₂).symm))
    (List.sorted_insertionSort jsLe l₁) (List.sorted_insertionSort jsLe l₂)

/-- The sort-and-compare check succeeds exactly on permutations
(multiset equality) of the `correct_answers` array. -/
theorem evalMultiSelect_eq_true_iff_perm (correct sel : List Nat) :
    evalMultiSelect correct sel = true ↔ List.Perm sel correct := by
  constructor
  · intro h
    have h' : jsSortNat correct = jsSortNat sel := by
      simpa [evalMultiSelect] using h
    exact (jsSortNat_perm sel).symm.trans (h' ▸ jsSortNat_perm correct)
  · intro h
    simp [evalMultiSelect, jsSortNat_eq_of_perm h]

theorem jsMathRound_intCast (n : Int) : jsMathRound ((n : ℚ)) = n := by
  simp [jsMathRound]

theorem jsOrZeroInt_eq (t : Int) : jsOrZeroInt t = t := by
  unfold jsOrZeroInt
  split <;> omega

theorem foldl_add_eq_sum (f : QuizAnswer → Int) :
    ∀ (l : List QuizAnswer) (acc : Int),
      l.foldl (fun sum a => sum + f a) acc = acc + (l.map f).sum
  | [], acc => by simp
  | a :: l, acc => by
    rw [List.foldl_cons, foldl_add_eq_sum f l (acc + f a)]
    simp [add_assoc]

theorem totalTimeTaken_eq_sum (answers : List QuizAnswer) :
    totalTimeTaken answers = (answers.map (fun a => a.timeTaken)).sum := by
  unfold totalTimeTaken
  simp only [jsOrZeroInt_eq]
  rw [foldl_add_eq_sum]
  simp

theorem specClampedTotalTime_eq_sum (answers : List QuizAnswer) :
    specClampedTotalTime answers = (answers.map (fun a => max a.timeTaken 0)).sum := by
  unfold specClampedTotalTime
  rw [foldl_add_eq_sum]
  simp

theorem incrTopic_sum_total (t : String) (c : Bool) :
    ∀ perf : List (String × TopicStat),
      ((incrTopic perf t c).map (fun e => e.2.total)).sum
        = (perf.map (fun e => e.2.total)).sum + 1
  | [] => by simp [incrTopic]
  | e :: rest => by
    by_cases h : e.1 = t
    · simp [incrTopic, h]
      omega
    · simp [incrTopic, h, incrTopic_sum_total t c rest]
      omega

theorem incrTopic_keys (t : String) (c : Bool) :
    ∀ perf : List (String × TopicStat),
      (incrTopic perf t c).map (fun e => e.1)
        = if t ∈ perf.map (fun e => e.1) then perf.map (fun e => e.1)
          else perf.map (fun e => e.1) ++ [t]
  | [] => by simp [incrTopic]
  | e :: rest => by
    by_cases h : e.1 = t
    · simp [incrTopic, h]
    · have hne : ¬ t = e.1 := fun hh => h hh.symm
      simp only [incrTopic, if_neg h, List.map_cons, List.mem_cons, hne, false_or]
      rw [incrTopic_keys t c rest]
      split <;> simp

theorem incrTopic_total_pos (t : String) (c : Bool) :
    ∀ perf : List (String × TopicStat),
      (∀ e ∈ perf, 0 < e.2.total) → ∀ e ∈ incrTopic perf t c, 0 < e.2.total
  | [], _, e, he => by
    simp [incrTopic] at he
    simp [he]
  | e₀ :: rest, h, e, he => by
    by_cases h₀ : e₀.1 = t
    · simp only [incrTopic, if_pos h₀, List.mem_cons] at he
      rcases he with he | he
      · simp [he]
      · exact h e (List.mem_cons_of_mem _ he)
    · simp only [incrTopic, if_neg h₀, List.mem_cons] at he
      rcases he with he | he
      · exact he ▸ h e₀ (List.mem_cons_self _ _)
      · exact incrTopic_total_pos t c rest
          (fun x hx => h x (List.mem_cons_of_mem _ hx)) e he

theorem foldl_incrTopic_sum (qs : List QuestionData) :
    ∀ (l : List (Nat × QuizAnswer)) (perf : List (String × TopicStat)),
      ((l.foldl (fun perf ia => incrTopic perf (topicOf qs ia.1) ia.2.isCorrect)
          perf).map (fun e => e.2.total)).sum
        = (perf.map (fun e => e.2.total)).sum + l.length
  | [], _ => by simp
  | ia :: l, perf => by
    rw [List.foldl_cons, foldl_incrTopic_sum qs l _, incrTopic_sum_total]
    simp
    omega

theorem topicPerformance_sum_total (qs : List QuestionData)
    (answers : List QuizAnswer) :
    ((topicPerformance qs answers).map (fun e => e.2.total)).sum
      = answers.length := by
  rw [topicPerformance, foldl_incrTopic_sum]
  simp

theorem foldl_incrTopic_keys (qs : List QuestionData) :
    ∀ (l : List (Nat × QuizAnswer)) (perf : List (String × TopicStat)),
      (l.foldl (fun perf ia => incrTopic perf (topicOf qs ia.1) ia.2.isCorrect)
          perf).map (fun e => e.1)
        = l.foldl
            (fun acc ia =>
              if topicOf qs ia.1 ∈ acc then acc else acc ++ [topicOf qs ia.1])
            (perf.map (fun e => e.1))
  | [], _ => by simp
  | ia :: l, perf => by
    rw [List.foldl_cons, List.foldl_cons, foldl_incrTopic_keys qs l _,
      incrTopic_keys]

theorem topicPerformance_keys (qs : List QuestionData)
    (answers : List QuizAnswer) :
    (topicPerformance qs answers).map (fun e => e.1)
      = specFirstSeen (answers.enum.map (fun ia => topicOf qs ia.1)) := by
  rw [topicPerformance, foldl_incrTopic_keys, specFirstSeen, List.foldl_map]
  simp

theorem topicPerformance_total_pos (qs : List QuestionData)
    (answers : List QuizAnswer) :
    ∀ e ∈ topicPerformance qs answers, 0 < e.2.total := by
  have aux : ∀ (l : List (Nat × QuizAnswer)) (perf : List (String × TopicStat)),
      (∀ e ∈ perf, 0 < e.2.total) →
      ∀ e ∈ l.foldl
        (fun perf ia => incrTopic perf (topicOf qs ia.1) ia.2.isCorrect) perf,
        0 < e.2.total := by
    intro l
    induction l with
    | nil => intro perf h; simpa using h
    | cons ia l ih =>
      intro perf h
      rw [List.foldl_cons]
      exact ih _ (incrTopic_total_pos _ _ perf h)
  exact aux answers.enum [] (by simp)

theorem isWeakStat_iff (s : TopicStat) (h : 0 < s.total) :
    isWeakStat s = true ↔ 5 * s.correct < 3 * s.total := by
  have ht : (0 : ℚ) < (s.total : ℚ) := by exact_mod_cast h
  rw [isWeakStat, decide_eq_true_eq,
    div_lt_div_iff₀ ht (by norm_num : (0 : ℚ) < 5),
    show ((s.correct : ℚ) * 5) = ((5 * s.correct : ℕ) : ℚ) by push_cast; ring,
    show ((3 : ℚ) * (s.total : ℚ)) = ((3 * s.total : ℕ) : ℚ) by push_cast; ring,
    Nat.cast_lt]

theorem mem_weakTopics_iff (perf : List (String × TopicStat)) (t : String) :
    t ∈ weakTopics perf ↔ ∃ s, (t, s) ∈ perf ∧ isWeakStat s = true := by
  constructor
  · intro h
    rcases List.mem_map.mp h with ⟨e, he, rfl⟩
    rcases List.mem_filter.mp he with ⟨hmem, hw⟩
    exact ⟨e.2, hmem, hw⟩
  · rintro ⟨s, hs, hw⟩
    exact List.mem_map.mpr ⟨(t, s), List.mem_filter.mpr ⟨hs, hw⟩, rfl⟩

theorem weakTopics_sublist (perf : List (String × TopicStat)) :
    List.Sublist (weakTopics perf) (perf.map (fun e => e.1)) := by
  unfold weakTopics
  exact (List.filter_sublist perf).map (fun e => e.1)

theorem evalMultiSelect_nodup_iff_toFinset (correct sel : List Nat)
    (h₁ : sel.Nodup) (h₂ : correct.Nodup) :
    evalMultiSelect correct sel = true ↔ sel.toFinset = correct.toFinset := by
  rw [evalMultiSelect_eq_true_iff_perm]
  exact ⟨List.toFinset_eq_of_perm sel correct,
    List.perm_of_nodup_nodup_toFinset_eq h₁ h₂⟩

theorem evalMultiSelect_false_of_dup_correct (correct sel : List Nat)
    (hdup : ¬ correct.Nodup) (hsel : sel.Nodup) :
    evalMultiSelect correct sel = false := by
  rw [← Bool.not_eq_true, evalMultiSelect_eq_true_iff_perm]
  intro hp
  exact hdup (hp.nodup_iff.mp hsel)

theorem handleMultiSelectToggle_nodup (st : QuizComponentState) (index : Nat)
    (h : st.selectedAnswers.Nodup) :
    (handleMultiSelectToggle st index).selectedAnswers.Nodup := by
  unfold handleMultiSelectToggle
  split
  · exact h
  · simp only
    split
    · exact h.filter _
    · rename_i hmem
      simp [List.nodup_append, h, hmem]

theorem roundHalfEven_intCast (n : ℤ) : roundHalfEven ((n : ℚ)) = n := by
  norm_num [roundHalfEven]

theorem roundHalfEven_eq_of_frac_lt {q : ℚ} {n : ℤ} (h1 : (n : ℚ) ≤ q)
    (h2 : q < n + 1) (h3 : q - n < 1 / 2) : roundHalfEven q = n := by
  have hf : ⌊q⌋ = n := Int.floor_eq_iff.mpr ⟨h1, h2⟩
  rw [roundHalfEven, hf, if_pos h3]

theorem roundHalfEven_close (q : ℚ) : |(roundHalfEven q : ℚ) - q| ≤ 1 / 2 := by
  have h1 : (⌊q⌋ : ℚ) ≤ q := Int.floor_le q
  have h2 : q < ⌊q⌋ + 1 := Int.lt_floor_add_one q
  unfold roundHalfEven
  split_ifs with ha hb hc
  · rw [abs_le]
    constructor <;> linarith
  · push_neg at ha
    rw [abs_le]
    constructor <;> push_cast <;> linarith
  · push_neg at ha hb
    rw [abs_le]
    constructor <;> linarith
  · push_neg at ha hb
    rw [abs_le]
    constructor <;> push_cast <;> linarith

theorem int_log2_eq {x : ℚ} {e : ℤ} (hx : 0 < x) (h1 : (2 : ℚ) ^ e ≤ x)
    (h2 : x < (2 : ℚ) ^ (e + 1)) : Int.log 2 x = e := by
  have hm := zpow_right_strictMono₀ (show (1 : ℚ) < 2 by norm_num)
  have hl : (2 : ℚ) ^ Int.log 2 x ≤ x := by
    exact_mod_cast Int.zpow_log_le_self one_lt_two hx
  have hr : x < (2 : ℚ) ^ (Int.log 2 x + 1) := by
    exact_mod_cast Int.lt_zpow_succ_log_self one_lt_two x
  have h3 : e < Int.log 2 x + 1 := hm.lt_iff_lt.mp (lt_of_le_of_lt h1 hr)
  have h4 : Int.log 2 x < e + 1 := hm.lt_iff_lt.mp (lt_of_le_of_lt hl h2)
  omega

theorem roundToDouble_zero : roundToDouble 0 = 0 := by
  simp [roundToDouble]

theorem roundToDouble_close {x : ℚ} (hx : 0 ≤ x) :
    |roundToDouble x - x| ≤ x / 2 ^ 53 := by
  rcases eq_or_lt_of_le hx with h0 | hpos
  · rw [← h0, roundToDouble_zero]
    norm_num
  · have hne : x ≠ 0 := ne_of_gt hpos
    rw [roundToDouble, if_neg hne]
    have hp : (0 : ℚ) < 2 ^ (Int.log 2 |x| - 52) := zpow_pos (by norm_num) _
    have key := roundHalfEven_close (x / 2 ^ (Int.log 2 |x| - 52))
    have hle : (2 : ℚ) ^ Int.log 2 |x| ≤ x := by
      rw [show Int.log 2 |x| = Int.log 2 x by rw [abs_of_pos hpos]]
      exact_mod_cast Int.zpow_log_le_self one_lt_two hpos
    have heq : |(roundHalfEven (x / 2 ^ (Int.log 2 |x| - 52)) : ℚ)
          * 2 ^ (Int.log 2 |x| - 52) - x|
        = |(roundHalfEven (x / 2 ^ (Int.log 2 |x| - 52)) : ℚ)
            - x / 2 ^ (Int.log 2 |x| - 52)| * 2 ^ (Int.log 2 |x| - 52) := by
      have hmul : (roundHalfEven (x / 2 ^ (Int.log 2 |x| - 52)) : ℚ)
            * 2 ^ (Int.log 2 |x| - 52) - x
          = ((roundHalfEven (x / 2 ^ (Int.log 2 |x| - 52)) : ℚ)
              - x / 2 ^ (Int.log 2 |x| - 52)) * 2 ^ (Int.log 2 |x| - 52) := by
        field_simp
      rw [hmul, abs_mul, abs_of_pos hp]
    rw [heq]
    have hstep : (2 : ℚ) ^ (Int.log 2 |x| - 52) / 2
        = (2 : ℚ) ^ Int.log 2 |x| / 2 ^ 53 := by
      have hsplit : (2 : ℚ) ^ Int.log 2 |x|
          = (2 : ℚ) ^ (Int.log 2 |x| - 52) * 2 ^ (52 : ℤ) := by
        rw [← zpow_add₀ (two_ne_zero : (2 : ℚ) ≠ 0)]
        congr 1
        ring
      rw [hsplit, show ((2 : ℚ) ^ (52 : ℤ)) = 4503599627370496 by norm_num,
        show ((2 : ℚ) ^ (53 : ℕ)) = 9007199254740992 by norm_num]
      ring
    calc |(roundHalfEven (x / 2 ^ (Int.log 2 |x| - 52)) : ℚ)
          - x / 2 ^ (Int.log 2 |x| - 52)| * 2 ^ (Int.log 2 |x| - 52)
        ≤ (1 / 2) * 2 ^ (Int.log 2 |x| - 52) :=
          mul_le_mul_of_nonneg_right key hp.le
      _ = (2 : ℚ) ^ (Int.log 2 |x| - 52) / 2 := by ring
      _ = (2 : ℚ) ^ Int.log 2 |x| / 2 ^ 53 := hstep
      _ ≤ x / 2 ^ 53 := by gcongr

theorem roundToDouble_one : roundToDouble (1 : ℚ) = 1 := by
  have hlog : Int.log 2 |(1 : ℚ)| = 0 := by
    rw [abs_one]
    exact Int.log_one_right 2
  rw [roundToDouble, if_neg one_ne_zero, hlog]
  rw [show (1 : ℚ) / 2 ^ ((0 : ℤ) - 52) = ((4503599627370496 : ℤ) : ℚ) by
      norm_num,
    roundHalfEven_intCast]
  norm_num

theorem roundToDouble_hundred : roundToDouble (100 : ℚ) = 100 := by
  have hlog : Int.log 2 |(100 : ℚ)| = 6 := by
    rw [abs_of_pos (by norm_num : (0 : ℚ) < 100)]
    exact int_log2_eq (by norm_num) (by norm_num) (by norm_num)
  rw [roundToDouble, if_neg (by norm_num : (100 : ℚ) ≠ 0), hlog]
  rw [show (100 : ℚ) / 2 ^ ((6 : ℤ) - 52) = ((7036874417766400 : ℤ) : ℚ) by
      norm_num,
    roundHalfEven_intCast]
  norm_num

theorem floor_diff_le_one {a b : ℚ} (h : |a - b| < 1) :
    (⌊a⌋ - ⌊b⌋).natAbs ≤ 1 := by
  rw [abs_lt] at h
  have h1 : ⌊a⌋ ≤ ⌊b⌋ + 1 := by
    have := Int.floor_le_floor (show a ≤ b + 1 by linarith)
    rwa [Int.floor_add_one] at this
  have h2 : ⌊b⌋ ≤ ⌊a⌋ + 1 := by
    have := Int.floor_le_floor (show b ≤ a + 1 by linarith)
    rwa [Int.floor_add_one] at this
  omega

theorem score_pipeline_within_one (c t : ℕ) (hct : c ≤ t) (ht : 0 < t) :
    (jsMathRound (roundToDouble (roundToDouble ((c : ℚ) / (t : ℚ)) * 100))
      - round (((c : ℚ) / (t : ℚ)) * 100)).natAbs ≤ 1 := by
  have htq : (0 : ℚ) < (t : ℚ) := by exact_mod_cast ht
  have hr0 : 0 ≤ (c : ℚ) / (t : ℚ) := div_nonneg (by positivity) htq.le
  have hr1 : (c : ℚ) / (t : ℚ) ≤ 1 := by
    rw [div_le_one htq]
    exact_mod_cast hct
  have e1 := roundToDouble_close hr0
  have e1' : |roundToDouble ((c : ℚ) / (t : ℚ)) - (c : ℚ) / (t : ℚ)|
      ≤ 1 / 2 ^ 53 := by
    refine e1.trans ?_
    gcongr
  have hfl1nn : 0 ≤ roundToDouble ((c : ℚ) / (t : ℚ)) := by
    have hlo := (abs_le.mp e1).1
    have hsmall : (c : ℚ) / (t : ℚ) / 2 ^ 53 ≤ (c : ℚ) / (t : ℚ) :=
      div_le_self hr0 (by norm_num)
    linarith
  have hfl1ub : roundToDouble ((c : ℚ) / (t : ℚ)) ≤ 1 + 1 / 100 := by
    have hhi := (abs_le.mp e1').2
    have h53 : (1 : ℚ) / 2 ^ 53 ≤ 1 / 100 := by norm_num
    linarith
  have e2 : |roundToDouble ((c : ℚ) / (t : ℚ)) * 100 - (c : ℚ) / (t : ℚ) * 100|
      ≤ 100 / 2 ^ 53 := by
    rw [show roundToDouble ((c : ℚ) / (t : ℚ)) * 100 - (c : ℚ) / (t : ℚ) * 100
        = (roundToDouble ((c : ℚ) / (t : ℚ)) - (c : ℚ) / (t : ℚ)) * 100 by ring,
      abs_mul, abs_of_pos (by norm_num : (0 : ℚ) < 100)]
    calc |roundToDouble ((c : ℚ) / (t : ℚ)) - (c : ℚ) / (t : ℚ)| * 100
        ≤ (1 / 2 ^ 53) * 100 := mul_le_mul_of_nonneg_right e1' (by norm_num)
      _ = 100 / 2 ^ 53 := by ring
  have hx2nn : 0 ≤ roundToDouble ((c : ℚ) / (t : ℚ)) * 100 := by positivity
  have hub : roundToDouble ((c : ℚ) / (t : ℚ)) * 100 ≤ 101 := by linarith
  have e3 := roundToDouble_close hx2nn
  have e3' : |roundToDouble (roundToDouble ((c : ℚ) / (t : ℚ)) * 100)
        - roundToDouble ((c : ℚ) / (t : ℚ)) * 100| ≤ 101 / 2 ^ 53 := by
    refine e3.trans ?_
    gcongr
  have etot : |roundToDouble (roundToDouble ((c : ℚ) / (t : ℚ)) * 100)
        - (c : ℚ) / (t : ℚ) * 100| < 1 := by
    calc |roundToDouble (roundToDouble ((c : ℚ) / (t : ℚ)) * 100)
          - (c : ℚ) / (t : ℚ) * 100|
        ≤ |roundToDouble (roundToDouble ((c : ℚ) / (t : ℚ)) * 100)
              - roundToDouble ((c : ℚ) / (t : ℚ)) * 100|
            + |roundToDouble ((c : ℚ) / (t : ℚ)) * 100
              - (c : ℚ) / (t : ℚ) * 100| := abs_sub_le _ _ _
      _ ≤ 101 / 2 ^ 53 + 100 / 2 ^ 53 := add_le_add e3' e2
      _ < 1 := by norm_num
  rw [jsMathRound, round_eq, round_eq]
  apply floor_diff_le_one
  rw [show roundToDouble (roundToDouble ((c : ℚ) / (t : ℚ)) * 100) + 1 / 2
      - ((c : ℚ) / (t : ℚ) * 100 + 1 / 2)
      = roundToDouble (roundToDouble ((c : ℚ) / (t : ℚ)) * 100)
        - (c : ℚ) / (t : ℚ) * 100 by ring]
  exact etot

/-! ## The claims -/

/-- C1: evaluation of the completion path at the failing input.  Over a
one-question bank answered correctly, `handleNext` records score 200: its
`correctCount` adds 1 for the final answer although `answers` already
contains it, so a correct final answer is counted twice.  The claimed
value `round(100·c/n)` is 100, and the Results page's own recomputation
(`resultsScore`) also yields 100, disagreeing with the recorded score. -/
theorem completion_score_double_counts_final_answer :
    oneQuestionRun.answers.length = 1 ∧
    (oneQuestionRun.answers.filter (fun a => a.isCorrect)).length = 1 ∧
    oneQuestionRun.score = 200 ∧
    jsMathRound ((((oneQuestionRun.answers.filter (fun a => a.isCorrect)).length : ℚ)
        / ((oneQuestionBank.length : ℕ) : ℚ)) * 100) = 100 ∧
    resultsScore oneQuestionRun.answers = 100 := by
  have hlen : oneQuestionRun.answers.length = 1 := by decide
  have hc : (oneQuestionRun.answers.filter (fun a => a.isCorrect)).length = 1 := by
    decide
  have hpos : 0 < oneQuestionRun.answers.length := by omega
  refine ⟨hlen, hc, ?_, ?_, ?_⟩
  · have hscore : oneQuestionRun.score
        = jsMathRound (((2 : ℕ) : ℚ) / ((1 : ℕ) : ℚ) * 100) := rfl
    rw [hscore,
      show (((2 : ℕ) : ℚ) / ((1 : ℕ) : ℚ) * 100) = ((200 : ℤ) : ℚ) by norm_num,
      jsMathRound_intCast]
  · rw [hc, show oneQuestionBank.length = 1 from rfl,
      show (((1 : ℕ) : ℚ) / ((1 : ℕ) : ℚ) * 100) = ((100 : ℤ) : ℚ) by norm_num,
      jsMathRound_intCast]
  · rw [resultsScore, statisticsAccuracy, if_pos hpos, hc, hlen]
    rw [show (((1 : ℕ) : ℚ) / ((1 : ℕ) : ℚ)) = (1 : ℚ) by norm_num,
      roundToDouble_one, one_mul, roundToDouble_hundred]
    norm_num [jsMathRound]

/-- C2 counterexample: for `correct_answers = [0, 0]` the duplicate-free
selection `[0]` equals the correct list as a set, yet the sort-and-compare
evaluation returns `false` — so "correct iff the selected set equals the
correct set" fails as stated. -/
theorem multiselect_set_equality_fails_on_duplicates :
    evalIsCorrect
        (.multi_select
          { options := ["a", "b"], correct_answers := [0, 0], topic := none })
        none [0] = false ∧
    ([0] : List Nat).toFinset = ([0, 0] : List Nat).toFinset :=
  ⟨by decide, by decide⟩

/-- C2 (amended): answer evaluation is a pure type-dispatched function;
multiple choice is exact index equality, true/false is boolean equality,
and multi-select compares the sorted arrays, which succeeds exactly on
multiset (permutation) equality with `correct_answers` — coinciding with
order-independent set equality (no subset credit) whenever both the
selection and `correct_answers` are duplicate-free, as in the spec's
examples. -/
theorem answer_evaluation_dispatch :
    (∀ (mc : MultipleChoiceQuestion) (i : Nat) (sels : List Nat),
      evalIsCorrect (.multiple_choice mc) (some (.idx i)) sels = true
        ↔ i = mc.correct_answer) ∧
    (∀ (tf : TrueFalseQuestion) (b : Bool) (sels : List Nat),
      evalIsCorrect (.true_false tf) (some (.bool b)) sels = true
        ↔ b = tf.correct_answer) ∧
    (∀ (ms : MultiSelectQuestion) (sa : Option SingleAnswer) (sels : List Nat),
      evalIsCorrect (.multi_select ms) sa sels = true
        ↔ List.Perm sels ms.correct_answers) ∧
    (∀ (ms : MultiSelectQuestion) (sa : Option SingleAnswer) (sels : List Nat),
      sels.Nodup → ms.correct_answers.Nodup →
      (evalIsCorrect (.multi_select ms) sa sels = true
        ↔ sels.toFinset = ms.correct_answers.toFinset)) ∧
    evalIsCorrect
        (.multi_select
          { options := ["a", "b", "c"], correct_answers := [0, 1, 2], topic := none })
        none [2, 0, 1] = true ∧
    evalIsCorrect
        (.multi_select
          { options := ["a", "b", "c"], correct_answers := [0, 1, 2], topic := none })
        none [0, 1, 2] = true ∧
    evalIsCorrect
        (.multi_select
          { options := ["a", "b", "c"], correct_answers := [0, 1, 2], topic := none })
        none [0, 1] = false := by
  refine ⟨?_, ?_, ?_, ?_, by decide, by decide, by decide⟩
  · intro mc i sels
    simp [evalIsCorrect, jsStrictEqNat]
  · intro tf b sels
    simp [evalIsCorrect, jsStrictEqBool]
  · intro ms sa sels
    simpa [evalIsCorrect] using evalMultiSelect_eq_true_iff_perm ms.correct_answers sels
  · intro ms sa sels h₁ h₂
    simpa [evalIsCorrect] using
      evalMultiSelect_nodup_iff_toFinset ms.correct_answers sels h₁ h₂

/-- C2 witness: the amended multi-select characterisation applied to the
spec's own duplicate-free example. -/
theorem answer_evaluation_dispatch_witness :
    ([2, 0, 1] : List Nat).Nodup ∧ ([0, 1, 2] : List Nat).Nodup ∧
    (evalIsCorrect
        (.multi_select
          { options := ["a", "b", "c"], correct_answers := [0, 1, 2], topic := none })
        none [2, 0, 1] = true
      ↔ ([2, 0, 1] : List Nat).toFinset = ([0, 1, 2] : List Nat).toFinset) :=
  ⟨by decide, by decide,
    answer_evaluation_dispatch.2.2.2.1
      { options := ["a", "b", "c"], correct_answers := [0, 1, 2], topic := none }
      none [2, 0, 1] (by decide) (by decide)⟩

/-- C3: a second submit before an advance is rejected with `StateError`
and changes nothing (in particular the committed answer list and its
length), and an advance with no committed submit for the current question
is rejected with `StateError`, leaving the state unchanged. -/
theorem double_submit_and_early_advance_rejected :
    ∀ (qs : List QuestionData) (st : QuizComponentState)
      (now now' startTime : Int),
      (st.showFeedback = true →
        clickSubmit qs st now = (st, some QuizUiError.StateError)) ∧
      (st.showFeedback = false →
        (clickSubmit qs st now).1.showFeedback = true →
        clickSubmit qs (clickSubmit qs st now).1 now'
            = ((clickSubmit qs st now).1, some QuizUiError.StateError) ∧
          (clickSubmit qs (clickSubmit qs st now).1 now').1.answers.length
            = (clickSubmit qs st now).1.answers.length) ∧
      (st.showFeedback = false →
        clickNext qs st startTime now
          = (NextResult.next st, some QuizUiError.StateError)) := by
  intro qs st now now' startTime
  have base : ∀ (s : QuizComponentState) (m : Int), s.showFeedback = true →
      clickSubmit qs s m = (s, some QuizUiError.StateError) := by
    intro s m h
    simp [clickSubmit, h]
  refine ⟨base st now, ?_, ?_⟩
  · intro _ hfb
    refine ⟨base _ now' hfb, ?_⟩
    rw [base _ now' hfb]
  · intro h
    simp [clickNext, h]

/-- C3 witness: the rejections observed on a concrete one-question
session (submit once, then submit again; advance before any submit). -/
theorem double_submit_and_early_advance_rejected_witness :
    clickSubmit oneQuestionBank
        (clickSubmit oneQuestionBank
          (selectAnswer (initQuizState 0) (.idx 1)) 5000).1 6000
      = ((clickSubmit oneQuestionBank
          (selectAnswer (initQuizState 0) (.idx 1)) 5000).1,
        some QuizUiError.StateError) ∧
    clickNext oneQuestionBank (selectAnswer (initQuizState 0) (.idx 1)) 0 5000
      = (NextResult.next (selectAnswer (initQuizState 0) (.idx 1)),
        some QuizUiError.StateError) :=
  ⟨((double_submit_and_early_advance_rejected oneQuestionBank
      (selectAnswer (initQuizState 0) (.idx 1)) 5000 6000 0).2.1
      (by decide) (by decide)).1,
    (double_submit_and_early_advance_rejected oneQuestionBank
      (selectAnswer (initQuizState 0) (.idx 1)) 5000 6000 0).2.2 (by decide)⟩

/-- C4 counterexample: a submission after a five-second backward clock
jump records `timeTaken = -5`, and `computeTotalTime` sums it to `-5` —
the addend is not clamped (the spec's clamped sum would give 0). -/
theorem backward_clock_time_not_clamped :
    backwardClockAnswers.map (fun a => a.timeTaken) = [-5] ∧
    totalTimeTaken backwardClockAnswers = -5 ∧
    specClampedTotalTime backwardClockAnswers = 0 := by
  have hv : jsMathRound (((5000 - 10000 : ℤ) : ℚ) / 1000) = -5 := by
    rw [show (((5000 - 10000 : ℤ) : ℚ) / 1000) = ((-5 : ℤ) : ℚ) by norm_num,
      jsMathRound_intCast]
  have ht : backwardClockAnswers.map (fun a => a.timeTaken)
      = [jsMathRound (((5000 - 10000 : ℤ) : ℚ) / 1000)] := rfl
  have htc : backwardClockAnswers.map (fun a => max a.timeTaken 0)
      = [max (jsMathRound (((5000 - 10000 : ℤ) : ℚ) / 1000)) 0] := rfl
  refine ⟨by rw [ht, hv], ?_, ?_⟩
  · rw [totalTimeTaken_eq_sum, ht, hv]
    simp
  · rw [specClampedTotalTime_eq_sum, htc, hv]
    simp

/-- C4 (amended): `computeTotalTime` is the plain, unclamped sum of the
recorded `timeTaken` values (the `|| 0` falls back only on the falsy 0),
so a negative reading decreases the total; the claimed clamped behaviour
coincides with it exactly when every recorded time is non-negative. -/
theorem computeTotalTime_unclamped_sum :
    (∀ answers : List QuizAnswer,
      totalTimeTaken answers = (answers.map (fun a => a.timeTaken)).sum) ∧
    (∀ answers : List QuizAnswer, (∀ a ∈ answers, 0 ≤ a.timeTaken) →
      totalTimeTaken answers = specClampedTotalTime answers) := by
  refine ⟨totalTimeTaken_eq_sum, ?_⟩
  intro answers h
  rw [totalTimeTaken_eq_sum, specClampedTotalTime_eq_sum]
  congr 1
  refine List.map_congr_left ?_
  intro a ha
  have := h a ha
  omega

/-- C4 witness: on an all-non-negative answer list the two sums agree. -/
theorem computeTotalTime_unclamped_sum_witness :
    totalTimeTaken [sampleCorrectAnswer, sampleIncorrectAnswer]
      = specClampedTotalTime [sampleCorrectAnswer, sampleIncorrectAnswer] :=
  computeTotalTime_unclamped_sum.2 [sampleCorrectAnswer, sampleIncorrectAnswer]
    (by decide)

/-- C5: `computeWeakTopics` returns, in the iteration order of
`computeTopicPerformance` (a sublist of its keys), exactly the topics
whose exact ratio `correct / total` is strictly below `0.6 = 3/5`; on the
accumulated entries (whose `total` is always positive) that comparison is
the exact cross-multiplied one, with no rounding, and a topic at exactly
`3/5` is not weak. -/
theorem weakTopics_strict_threshold_and_order :
    ∀ (qs : List QuestionData) (answers : List QuizAnswer),
      List.Sublist (weakTopics (topicPerformance qs answers))
          ((topicPerformance qs answers).map (fun e => e.1)) ∧
      (∀ t : String, t ∈ weakTopics (topicPerformance qs answers) ↔
        ∃ s : TopicStat, (t, s) ∈ topicPerformance qs answers ∧
          ((s.correct : ℚ) / (s.total : ℚ)) < 3 / 5) ∧
      (∀ (t : String) (s : TopicStat), (t, s) ∈ topicPerformance qs answers →
        (((s.correct : ℚ) / (s.total : ℚ)) < 3 / 5
          ↔ 5 * s.correct < 3 * s.total)) ∧
      isWeakStat { correct := 3, total := 5 } = false := by
  intro qs answers
  refine ⟨weakTopics_sublist _, ?_, ?_, ?_⟩
  · intro t
    rw [mem_weakTopics_iff]
    constructor
    · rintro ⟨s, hs, hw⟩
      rw [isWeakStat, decide_eq_true_eq] at hw
      exact ⟨s, hs, hw⟩
    · rintro ⟨s, hs, hw⟩
      refine ⟨s, hs, ?_⟩
      rw [isWeakStat, decide_eq_true_eq]
      exact hw
  · intro t s hs
    have hpos := topicPerformance_total_pos qs answers (t, s) hs
    have h := isWeakStat_iff s hpos
    rw [isWeakStat, decide_eq_true_eq] at h
    exact h
  · rw [isWeakStat, decide_eq_false_iff_not]
    push_cast
    norm_num

/-- C5 witness: the cross-multiplied characterisation applied to the
"General" entry of a concrete single-answer session. -/
theorem weakTopics_strict_threshold_witness :
    ("General", ({ correct := 0, total := 1 } : TopicStat))
        ∈ topicPerformance [] [sampleIncorrectAnswer] ∧
    ((((0 : ℕ) : ℚ) / ((1 : ℕ) : ℚ)) < 3 / 5 ↔ 5 * 0 < 3 * 1) :=
  ⟨by decide,
    (weakTopics_strict_threshold_and_order [] [sampleIncorrectAnswer]).2.2.1
      "General" { correct := 0, total := 1 } (by decide)⟩

/-- C6: over every session the topic totals of `topicPerformance` sum to
the number of committed answers; each accumulation step (one answer,
attributed to the single topic `topicOf` gives it — the question's topic,
with "General" as the fallback) adds exactly 1 to exactly one total; and
the keys appear in first-seen order of the answers' topics. -/
theorem topicPerformance_totals_sum_and_order :
    ∀ (qs : List QuestionData) (answers : List QuizAnswer),
      ((topicPerformance qs answers).map (fun e => e.2.total)).sum
          = answers.length ∧
      (topicPerformance qs answers).map (fun e => e.1)
          = specFirstSeen (answers.enum.map (fun ia => topicOf qs ia.1)) ∧
      (∀ (perf : List (String × TopicStat)) (t : String) (c : Bool),
        ((incrTopic perf t c).map (fun e => e.2.total)).sum
          = (perf.map (fun e => e.2.total)).sum + 1) :=
  fun qs answers =>
    ⟨topicPerformance_sum_total qs answers, topicPerformance_keys qs answers,
      fun perf t c => incrTopic_sum_total t c perf⟩

/-- C7: the streak counter starts at 0, gains 1 on each correct submitted
answer and resets to 0 on an incorrect one; the session answered
[correct, correct, incorrect, correct] shows streaks [1, 2, 0, 1]; and
the banner tier is a pure projection of the current value: high iff
`streak ≥ 5`, medium iff `3 ≤ streak < 5`, none otherwise. -/
theorem streak_counter_and_tiers :
    (∀ t : Int, (initQuizState t).correctStreak = 0) ∧
    (∀ s : Nat, nextStreak s true = s + 1) ∧
    (∀ s : Nat, nextStreak s false = 0) ∧
    runStreaks tfBank (initQuizState 0) [true, true, false, true]
      = [1, 2, 0, 1] ∧
    (∀ s : Nat, getStreakMessage s = some StreakTier.high ↔ 5 ≤ s) ∧
    (∀ s : Nat, getStreakMessage s = some StreakTier.medium ↔ 3 ≤ s ∧ s < 5) ∧
    (∀ s : Nat, getStreakMessage s = none ↔ s < 3) := by
  refine ⟨fun t => rfl, fun s => rfl, fun s => rfl, by decide, ?_, ?_, ?_⟩ <;>
    intro s <;> rw [getStreakMessage] <;> split_ifs <;> simp <;> omega

/-- C8 counterexample: at 23 correct of 40 answered, the double-precision
pipeline computes `(23/40)*100 = 57.49999999999999289…` and `Math.round`
gives 57, while the exact ratio rounded to the nearest integer is 58 — so
"returns correctCount / totalAnswered * 100 rounded to the nearest
integer" fails as stated. -/
theorem accuracy_float_rounds_down_at_23_of_40 :
    (fortyAnswers.filter (fun a => a.isCorrect)).length = 23 ∧
    fortyAnswers.length = 40 ∧
    resultsScore fortyAnswers = 57 ∧
    round ((((23 : ℕ) : ℚ) / ((40 : ℕ) : ℚ)) * 100) = 58 := by
  have hfilter : (fortyAnswers.filter (fun a => a.isCorrect)).length = 23 := by
    decide
  have hlen : fortyAnswers.length = 40 := by decide
  refine ⟨hfilter, hlen, ?_, ?_⟩
  · rw [resultsScore, statisticsAccuracy,
      if_pos (show 0 < fortyAnswers.length by rw [hlen]; norm_num),
      hfilter, hlen]
    have s1 : roundToDouble (((23 : ℕ) : ℚ) / ((40 : ℕ) : ℚ))
        = 5179139571476070 / 2 ^ 53 := by
      rw [show (((23 : ℕ) : ℚ) / ((40 : ℕ) : ℚ)) = (23 : ℚ) / 40 by norm_num]
      have hpos : (0 : ℚ) < 23 / 40 := by norm_num
      have hlog : Int.log 2 |(23 : ℚ) / 40| = -1 := by
        rw [abs_of_pos hpos]
        exact int_log2_eq hpos (by norm_num) (by norm_num)
      rw [roundToDouble, if_neg (by norm_num), hlog]
      rw [show ((23 : ℚ) / 40) / 2 ^ ((-1 : ℤ) - 52)
          = 25895697857380352 / 5 by norm_num]
      rw [roundHalfEven_eq_of_frac_lt (n := 5179139571476070)
        (by norm_num) (by norm_num) (by norm_num)]
      norm_num
    have s2 : roundToDouble ((5179139571476070 / 2 ^ 53 : ℚ) * 100)
        = 8092405580431359 / 2 ^ 47 := by
      rw [show ((5179139571476070 / 2 ^ 53 : ℚ) * 100)
          = 517913957147607000 / 2 ^ 53 by norm_num]
      have hpos : (0 : ℚ) < 517913957147607000 / 2 ^ 53 := by norm_num
      have hlog : Int.log 2 |(517913957147607000 : ℚ) / 2 ^ 53| = 5 := by
        rw [abs_of_pos hpos]
        exact int_log2_eq hpos (by norm_num) (by norm_num)
      rw [roundToDouble, if_neg (by norm_num), hlog]
      rw [show ((517913957147607000 : ℚ) / 2 ^ 53) / 2 ^ ((5 : ℤ) - 52)
          = 64739244643450875 / 8 by norm_num]
      rw [roundHalfEven_eq_of_frac_lt (n := 8092405580431359)
        (by norm_num) (by norm_num) (by norm_num)]
      norm_num
    rw [s1, s2, jsMathRound, round_eq, Int.floor_eq_iff]
    constructor <;> norm_num
  · rw [round_eq,
      show (((23 : ℕ) : ℚ) / ((40 : ℕ) : ℚ)) * 100 = 115 / 2 by norm_num,
      Int.floor_eq_iff]
    constructor <;> norm_num

/-- C8 (amended): the displayed score is `Math.round` of the
double-precision value of `correctCount / totalAnswered * 100` (quotient
and product each rounded to the nearest binary64), which stays within 1
of the exact ratio rounded to the nearest integer but can differ from it,
as at 23 of 40; the `totalQuestions > 0` guard returns accuracy 0 for an
empty answer list, so the division is never evaluated with a zero
divisor. -/
theorem accuracy_double_rounded_and_guarded :
    ∀ answers : List QuizAnswer,
      (answers.length = 0 →
        statisticsAccuracy answers = 0 ∧ resultsScore answers = 0) ∧
      (0 < answers.length →
        statisticsAccuracy answers
          = roundToDouble (roundToDouble
              (((answers.filter (fun a => a.isCorrect)).length : ℚ)
                / (answers.length : ℚ)) * 100) ∧
        resultsScore answers = jsMathRound (statisticsAccuracy answers) ∧
        (resultsScore answers
          - round ((((answers.filter (fun a => a.isCorrect)).length : ℚ)
              / (answers.length : ℚ)) * 100)).natAbs ≤ 1) := by
  intro answers
  constructor
  · intro h
    have h0 : ¬ 0 < answers.length := by omega
    constructor
    · rw [statisticsAccuracy, if_neg h0]
    · rw [resultsScore, statisticsAccuracy, if_neg h0]
      simp [jsMathRound]
  · intro h
    refine ⟨by rw [statisticsAccuracy, if_pos h], rfl, ?_⟩
    rw [resultsScore, statisticsAccuracy, if_pos h]
    exact score_pipeline_within_one _ _ (List.length_filter_le _ _) h

/-- C8 witness: the guard on the empty list, and the amended
characterisation applied to the 23-of-40 session (where the score and the
exactly-rounded ratio differ by exactly 1). -/
theorem accuracy_double_rounded_and_guarded_witness :
    resultsScore [] = 0 ∧
    resultsScore fortyAnswers = jsMathRound (statisticsAccuracy fortyAnswers) ∧
    (resultsScore fortyAnswers
      - round ((((fortyAnswers.filter (fun a => a.isCorrect)).length : ℚ)
          / (fortyAnswers.length : ℚ)) * 100)).natAbs ≤ 1 :=
  ⟨((accuracy_double_rounded_and_guarded []).1 rfl).2,
    ((accuracy_double_rounded_and_guarded fortyAnswers).2 (by decide)).2.1,
    ((accuracy_double_rounded_and_guarded fortyAnswers).2 (by decide)).2.2⟩

/-- C9 counterexample: after a failed gateway call the rendered
completion summary is identical to the one rendered with no call at all —
nothing (in particular no warning) is attached to it; the failure is
recorded only in the console log. -/
theorem gateway_failure_leaves_summary_unchanged :
    renderSummary [] [sampleCorrectAnswer]
        (submitQuizResults initResultsPageState (.error { message := "timeout" }))
      = renderSummary [] [sampleCorrectAnswer] initResultsPageState ∧
    (submitQuizResults initResultsPageState
        (.error { message := "timeout" })).consoleErrors
      = ["Failed to submit quiz for analysis:"] ∧
    (renderSummary [] [sampleCorrectAnswer] initResultsPageState).performanceAnalysis
      = none :=
  ⟨rfl, rfl, rfl⟩

/-- C9 (amended): the gateway call's outcome — success or failure — never
changes the completion summary's score or statistics; a failure is caught
(the handler is total), is surfaced only as a console error log, and
leaves the page state otherwise untouched, with no warning attached to
the summary. -/
theorem gateway_outcome_never_changes_statistics :
    (∀ (qs : List QuestionData) (answers : List QuizAnswer)
        (page : ResultsPageState)
        (outcome : Except GatewayError PerformanceAnalysis),
      (renderSummary qs answers (submitQuizResults page outcome)).score
          = resultsScore answers ∧
      (renderSummary qs answers (submitQuizResults page outcome)).statistics
          = statistics qs answers) ∧
    (∀ (page : ResultsPageState) (e : GatewayError),
      page.performanceAnalysis = none →
      submitQuizResults page (.error e)
        = { page with
            consoleErrors :=
              page.consoleErrors ++ ["Failed to submit quiz for analysis:"]
            isSubmitting := false }) := by
  constructor
  · intro qs answers page outcome
    exact ⟨rfl, rfl⟩
  · intro page e h
    simp [submitQuizResults, h]

/-- C9 witness: the exact effect of a concrete failure on the initial
Results-page state. -/
theorem gateway_outcome_never_changes_statistics_witness :
    submitQuizResults initResultsPageState (.error { message := "timeout" })
      = { initResultsPageState with
          consoleErrors :=
            initResultsPageState.consoleErrors
              ++ ["Failed to submit quiz for analysis:"]
          isSubmitting := false } :=
  gateway_outcome_never_changes_statistics.2 initResultsPageState
    { message := "timeout" } rfl

/-- C10: the toggle interface keeps the tentative multi-select selection
duplicate-free (it starts empty and toggling removes an already-selected
index), and against a `correct_answers` list containing a repeated index
every duplicate-free selection evaluates incorrect — sorted-array
equality demands equal multiplicities — even when it equals
`correct_answers` as a set, as for `correct_answers = [0, 0, 2]` and
selection `[0, 2]`. -/
theorem multiselect_duplicates_never_correct :
    (∀ t : Int, (initQuizState t).selectedAnswers = []) ∧
    (∀ (st : QuizComponentState) (i : Nat), st.selectedAnswers.Nodup →
      (handleMultiSelectToggle st i).selectedAnswers.Nodup) ∧
    (∀ (ms : MultiSelectQuestion) (sa : Option SingleAnswer) (sels : List Nat),
      ¬ ms.correct_answers.Nodup → sels.Nodup →
      evalIsCorrect (.multi_select ms) sa sels = false) ∧
    evalIsCorrect
        (.multi_select
          { options := ["a", "b", "c"], correct_answers := [0, 0, 2], topic := none })
        none [0, 2] = false ∧
    ([0, 2] : List Nat).toFinset = ([0, 0, 2] : List Nat).toFinset := by
  refine ⟨fun t => rfl, handleMultiSelectToggle_nodup, ?_, by decide, by decide⟩
  intro ms sa sels hdup hsel
  simpa [evalIsCorrect] using
    evalMultiSelect_false_of_dup_correct ms.correct_answers sels hdup hsel

/-- C10 witness: the duplicate-`correct_answers` evaluation applied to
the concrete `[0, 0, 2]` versus the set-equal selection `[0, 2]`. -/
theorem multiselect_duplicates_witness :
    (¬ ([0, 0, 2] : List Nat).Nodup) ∧ ([0, 2] : List Nat).Nodup ∧
    evalIsCorrect
        (.multi_select
          { options := ["a", "b", "c"], correct_answers := [0, 0, 2], topic := none })
        none [0, 2] = false :=
  ⟨by decide, by decide,
    multiselect_duplicates_never_correct.2.2.1
      { options := ["a", "b", "c"], correct_answers := [0, 0, 2], topic := none }
      none [0, 2] (by decide) (by decide)⟩
